import Mathlib

/-!
Verification of the AWS SigV4 signer module (`GasAWS`) of this repository.

The module is Google Apps Script / JavaScript; we give a shallow embedding:
  * bytes are `Nat` in `0..255` inside the hash primitives, and signed
    JavaScript bytes (`Int` in `-128..127`) at the Apps Script API boundary,
    because `Utilities.computeDigest` / `computeHmacSha256Signature` return
    signed bytes — that signedness is what `BytesToHex` compensates for;
  * JavaScript strings become `String` (lists of characters); `undefined`
    string-valued variables become `Option String`, and interpolation of
    `undefined` produces the text "undefined" as in JavaScript;
  * the mutation of the caller-supplied `headers` object is made explicit by
    state passing: `BuildRequest` returns, next to the request descriptor,
    the final contents of the caller's headers object;
  * the clock (`Utilities.formatDate(new Date(), "GMT", ...)`) is an explicit
    `dateTimeStamp` argument;
  * `throw Error(msg)` becomes `Except.error msg`.
-/

/-! ### SHA-256 (FIPS 180-4), over byte lists, words as `Nat` mod 2^32 -/

def add32 (a b : Nat) : Nat := (a + b) % 4294967296

def rotr32 (n x : Nat) : Nat := ((x >>> n) ||| (x <<< (32 - n))) % 4294967296

def shaCh (x y z : Nat) : Nat := (x &&& y) ^^^ ((x ^^^ 4294967295) &&& z)

def shaMaj (x y z : Nat) : Nat := (x &&& y) ^^^ (x &&& z) ^^^ (y &&& z)

def bigSigma0 (x : Nat) : Nat := rotr32 2 x ^^^ rotr32 13 x ^^^ rotr32 22 x

def bigSigma1 (x : Nat) : Nat := rotr32 6 x ^^^ rotr32 11 x ^^^ rotr32 25 x

def smallSigma0 (x : Nat) : Nat := rotr32 7 x ^^^ rotr32 18 x ^^^ (x >>> 3)

def smallSigma1 (x : Nat) : Nat := rotr32 17 x ^^^ rotr32 19 x ^^^ (x >>> 10)

def shaK : List Nat :=
  [1116352408, 1899447441, 3049323471, 3921009573, 961987163, 1508970993,
   2453635748, 2870763221, 3624381080, 310598401, 607225278, 1426881987,
   1925078388, 2162078206, 2614888103, 3248222580, 3835390401, 4022224774,
   264347078, 604807628, 770255983, 1249150122, 1555081692, 1996064986,
   2554220882, 2821834349, 2952996808, 3210313671, 3336571891, 3584528711,
   113926993, 338241895, 666307205, 773529912, 1294757372, 1396182291,
   1695183700, 1986661051, 2177026350, 2456956037, 2730485921, 2820302411,
   3259730800, 3345764771, 3516065817, 3600352804, 4094571909, 275423344,
   430227734, 506948616, 659060556, 883997877, 958139571, 1322822218,
   1537002063, 1747873779, 1955562222, 2024104815, 2227730452, 2361852424,
   2428436474, 2756734187, 3204031479, 3329325298]

def shaH0 : List Nat :=
  [1779033703, 3144134277, 1013904242, 2773480762, 1359893119,
   2600822924, 528734635, 1541459225]

/-- Extend the 16 message-schedule words to 64.  The accumulator holds the
schedule so far in reverse order, so `w[t-2]` is entry 1 and `w[t-16]` entry 15. -/
def schedExt : Nat → List Nat → List Nat
  | 0, acc => acc
  | n + 1, acc =>
      let w := add32 (add32 (smallSigma1 (acc.getD 1 0)) (acc.getD 6 0))
                     (add32 (smallSigma0 (acc.getD 14 0)) (acc.getD 15 0))
      schedExt n (w :: acc)

def schedule (block : List Nat) : List Nat := (schedExt 48 block.reverse).reverse

/-- One round of the SHA-256 compression function on the 8-word working state. -/
def shaRound : (Nat × Nat × Nat × Nat × Nat × Nat × Nat × Nat) → (Nat × Nat) →
    (Nat × Nat × Nat × Nat × Nat × Nat × Nat × Nat)
  | (a, b, c, d, e, f, g, h), (k, w) =>
      let t1 := add32 h (add32 (bigSigma1 e) (add32 (shaCh e f g) (add32 k w)))
      let t2 := add32 (bigSigma0 a) (shaMaj a b c)
      (add32 t1 t2, a, b, c, add32 d t1, e, f, g)

def compress (hs : List Nat) (block : List Nat) : List Nat :=
  let kws := List.zip shaK (schedule block)
  let h0 := hs.getD 0 0
  let h1 := hs.getD 1 0
  let h2 := hs.getD 2 0
  let h3 := hs.getD 3 0
  let h4 := hs.getD 4 0
  let h5 := hs.getD 5 0
  let h6 := hs.getD 6 0
  let h7 := hs.getD 7 0
  let st := kws.foldl shaRound (h0, h1, h2, h3, h4, h5, h6, h7)
  match st with
  | (a, b, c, d, e, f, g, h) =>
      [add32 h0 a, add32 h1 b, add32 h2 c, add32 h3 d,
       add32 h4 e, add32 h5 f, add32 h6 g, add32 h7 h]

/-- Group a byte list into big-endian 32-bit words, four bytes per word. -/
def wordsOfBytes : List Nat → List Nat
  | b0 :: b1 :: b2 :: b3 :: rest =>
      ((b0 <<< 24) ||| (b1 <<< 16) ||| (b2 <<< 8) ||| b3) :: wordsOfBytes rest
  | _ => []

/-- The 8-byte big-endian encoding of the message bit length. -/
def lenBytes (n : Nat) : List Nat :=
  [(n >>> 56) &&& 255, (n >>> 48) &&& 255, (n >>> 40) &&& 255, (n >>> 32) &&& 255,
   (n >>> 24) &&& 255, (n >>> 16) &&& 255, (n >>> 8) &&& 255, n &&& 255]

/-- SHA-256 padding: `0x80`, zeros to 56 mod 64, then the 64-bit bit length. -/
def padMessage (msg : List Nat) : List Nat :=
  let len := msg.length
  let zeros := (119 - len % 64) % 64
  msg ++ 0x80 :: List.replicate zeros 0 ++ lenBytes (8 * len)

def processBlocks : Nat → List Nat → List Nat → List Nat
  | 0, hs, _ => hs
  | n + 1, hs, bytes => processBlocks n (compress hs (wordsOfBytes (bytes.take 64))) (bytes.drop 64)

def bytesOfWords (ws : List Nat) : List Nat :=
  ws.foldr (fun w acc =>
    ((w >>> 24) &&& 255) :: ((w >>> 16) &&& 255) :: ((w >>> 8) &&& 255) :: (w &&& 255) :: acc) []

/-- SHA-256 of a byte list (unsigned bytes in, unsigned digest bytes out). -/
def sha256 (msg : List Nat) : List Nat :=
  let padded := padMessage msg
  bytesOfWords (processBlocks (padded.length / 64) shaH0 padded)

/-- HMAC-SHA256 (RFC 2104) with 64-byte block size, unsigned bytes. -/
def hmacSha256 (key msg : List Nat) : List Nat :=
  let k0 := if 64 < key.length then sha256 key else key
  let k := k0 ++ List.replicate (64 - k0.length) 0
  let ipad := k.map (fun b => b ^^^ 0x36)
  let opad := k.map (fun b => b ^^^ 0x5c)
  sha256 (opad ++ sha256 (ipad ++ msg))

/-! ### The Apps Script boundary: UTF-8 strings and signed bytes

`Utilities.newBlob(s).getBytes()` and the string overloads of the digest
functions operate on the UTF-8 bytes of the string; the byte values handed
back to script code are Java signed bytes in `-128..127`. -/

def utf8Encode (c : Char) : List Nat :=
  let n := c.toNat
  if n < 0x80 then [n]
  else if n < 0x800 then [0xC0 ||| (n >>> 6), 0x80 ||| (n &&& 0x3F)]
  else if n < 0x10000 then
    [0xE0 ||| (n >>> 12), 0x80 ||| ((n >>> 6) &&& 0x3F), 0x80 ||| (n &&& 0x3F)]
  else
    [0xF0 ||| (n >>> 18), 0x80 ||| ((n >>> 12) &&& 0x3F),
     0x80 ||| ((n >>> 6) &&& 0x3F), 0x80 ||| (n &&& 0x3F)]

def strBytes (s : String) : List Nat := s.data.flatMap utf8Encode

/-- An unsigned byte as the signed byte Apps Script hands to script code. -/
def toSigned (n : Nat) : Int := if n < 128 then (n : Int) else (n : Int) - 256

/-- A script-level signed byte back to its unsigned `0..255` value. -/
def toUnsigned (b : Int) : Nat := (b % 256).toNat

/-- Embedding of `Utilities.newBlob(s).getBytes()`: the UTF-8 bytes of `s`, signed. -/
def blobBytes (s : String) : List Int := (strBytes s).map toSigned

/-- Embedding of `Utilities.computeHmacSha256Signature(value, key)`, byte-array overload. -/
def computeHmacSha256Signature (value key : List Int) : List Int :=
  (hmacSha256 (key.map toUnsigned) (value.map toUnsigned)).map toSigned

/-- Embedding of `Utilities.computeHmacSha256Signature(value, key)`, string overload. -/
def computeHmacSha256SignatureStr (value key : String) : List Int :=
  (hmacSha256 (strBytes key) (strBytes value)).map toSigned

/-- Embedding of `Utilities.computeDigest(Utilities.DigestAlgorithm.SHA_256, value)` on a string. -/
def computeDigest (value : String) : List Int := (sha256 (strBytes value)).map toSigned

/-! ### Lower-case hex rendering, as JavaScript `Number.prototype.toString(16)` -/

def hexDigit (n : Nat) : Char :=
  if n < 10 then Char.ofNat (48 + n) else Char.ofNat (87 + n)

def natToHexAux : Nat → Nat → List Char
  | 0, _ => []
  | fuel + 1, n => if n = 0 then [] else natToHexAux fuel (n / 16) ++ [hexDigit (n % 16)]

/-- JavaScript `n.toString(16)` for a non-negative integer: lower-case hex, no padding. -/
def natToHexLower (n : Nat) : String := if n = 0 then "0" else ⟨natToHexAux n n⟩

/-- JavaScript `b.toString(16)` for an integer: a leading minus sign when negative. -/
def jsNumToHexLower (b : Int) : String :=
  if b < 0 then "-" ++ natToHexLower b.natAbs else natToHexLower b.toNat

/-- JavaScript `Array.prototype.join("")`. -/
def jsJoinEmpty (l : List String) : String := l.foldl (fun a s => a ++ s) ""

/-- One iteration of the `BytesToHex` loop body (source lines 49–59):
normalize a negative (signed) byte by adding 256, render lower-case hex,
left-pad a single hex character with `"0"`. -/
def byteHex (b0 : Int) : String :=
  let b := b0
  let c := if b < 0 then jsNumToHexLower (256 + b) else jsNumToHexLower b
  if c.length = 1 then "0" ++ c else c

/-- Source `BytesToHex` (lines 45–62): map each byte through the loop body
and join the pieces with the empty separator. -/
def BytesToHex (bytes : List Int) : String := jsJoinEmpty (bytes.map byteHex)

/-- Source `Sha256Hash` (lines 64–69). -/
def Sha256Hash (value : String) : String := BytesToHex (computeDigest value)

/-- Source `Sha256Hmac` (lines 71–74). -/
def Sha256Hmac (value : String) (key : List Int) : String :=
  BytesToHex (computeHmacSha256Signature (blobBytes value) key)

/-- Source `GetSignatureKey` (lines 76–84): the 4-stage HMAC-SHA256 chain.
The first stage uses the string overload (`dateStamp` and `"AWS4" + key`
both strings); the later stages key on the raw signed bytes of the
previous stage. -/
def GetSignatureKey (key dateStamp regionName serviceName : String) : List Int :=
  let kDate := computeHmacSha256SignatureStr dateStamp ("AWS4" ++ key)
  let kRegion := computeHmacSha256Signature (blobBytes regionName) kDate
  let kService := computeHmacSha256Signature (blobBytes serviceName) kRegion
  let kSigning := computeHmacSha256Signature (blobBytes "aws4_request") kService
  kSigning

/-! ### JavaScript string and object helpers -/

/-- ASCII `String.prototype.toLowerCase` (all strings in play are ASCII). -/
def charToLower (c : Char) : Char :=
  if 65 ≤ c.toNat ∧ c.toNat ≤ 90 then Char.ofNat (c.toNat + 32) else c

def strToLower (s : String) : String := ⟨s.data.map charToLower⟩

/-- JavaScript `String.prototype.substring(a, b)` for `a ≤ b` (clamped at the ends). -/
def jsSubstring (s : String) (a b : Nat) : String := ⟨(s.data.take b).drop a⟩

/-- Code-unit lexicographic strict order: the JavaScript `<` on strings. -/
def charListLt : List Char → List Char → Bool
  | [], [] => false
  | [], _ :: _ => true
  | _ :: _, [] => false
  | a :: as, b :: bs =>
      if a.toNat < b.toNat then true
      else if b.toNat < a.toNat then false
      else charListLt as bs

def jsStrLt (a b : String) : Bool := charListLt a.data b.data

/-- The reflexive closure of `jsStrLt`, as a proposition. -/
def jsStrLe (a b : String) : Prop := (jsStrLt a b || a == b) = true

instance : DecidableRel jsStrLe := fun _ _ => inferInstanceAs (Decidable (_ = true))

/-- JavaScript `Array.prototype.sort` with the comparator `a<b?-1:1`: for the
pairwise-distinct key arrays this module sorts, the comparator is consistent
and the result is the unique arrangement sorted by the string `<`. -/
def sortKeys (l : List String) : List String := l.insertionSort jsStrLe

/-- A JavaScript object used as a string-keyed map: an insertion-ordered
association list (object keys are unique; `Object.keys` is insertion order). -/
abbrev HeadersMap := List (String × String)

/-- Assignment `m[k] = v`: overwrite in place when the key exists, else append. -/
def setKey : HeadersMap → String → String → HeadersMap
  | [], k, v => [(k, v)]
  | (k0, v0) :: rest, k, v =>
      if k0 = k then (k, v) :: rest else (k0, v0) :: setKey rest k v

/-- Deletion `delete m[k]`. -/
def delKey : HeadersMap → String → HeadersMap
  | [], _ => []
  | (k0, v0) :: rest, k => if k0 = k then rest else (k0, v0) :: delKey rest k

/-- JavaScript `Object.keys(m)`. -/
def keysOf (m : HeadersMap) : List String := m.map Prod.fst

/-- Property read `m[k]` where absence reads as `undefined` (never hit on present keys). -/
def getKey (m : HeadersMap) (k : String) : String := (m.lookup k).getD "undefined"

/-- Interpolating a possibly-`undefined` string into a template literal. -/
def jsShow (o : Option String) : String := o.getD "undefined"

/-! ### JavaScript values (for the `payload` argument) and `JSON.stringify` -/

mutual
inductive JsVal where
  | str (s : String)
  | num (n : Int)
  | boolean (b : Bool)
  | null
  | undef
  | obj (fields : JsFields)

inductive JsFields where
  | nil
  | cons (k : String) (v : JsVal) (rest : JsFields)
end

/-- JavaScript truthiness (integral numbers only; `NaN` not modelled). -/
def JsVal.truthy : JsVal → Bool
  | .str s => s ≠ ""
  | .num n => n ≠ 0
  | .boolean b => b
  | .null => false
  | .undef => false
  | .obj _ => true

/-- The test `typeof(v) !== "string"`. -/
def JsVal.isString : JsVal → Bool
  | .str _ => true
  | _ => false

def jsonEscapeChar (c : Char) : List Char :=
  if c = '"' then ['\\', '"']
  else if c = '\\' then ['\\', '\\']
  else if c = '\n' then ['\\', 'n']
  else if c = '\r' then ['\\', 'r']
  else if c = '\t' then ['\\', 't']
  else if c.toNat < 32 then
    '\\' :: 'u' :: '0' :: '0' :: [hexDigit (c.toNat / 16), hexDigit (c.toNat % 16)]
  else [c]

def jsonEscape (s : String) : String := ⟨s.data.flatMap jsonEscapeChar⟩

mutual
/-- JavaScript `JSON.stringify` (`undefined` at top level is unreachable from
`BuildRequest`, where falsy payloads are already replaced by `''`). -/
def jsonStringify : JsVal → String
  | .str s => "\"" ++ jsonEscape s ++ "\""
  | .num n => toString n
  | .boolean true => "true"
  | .boolean false => "false"
  | .null => "null"
  | .undef => "undefined"
  | .obj fields => "\x7b" ++ jsonFields fields ++ "\x7d"

def jsonFields : JsFields → String
  | .nil => ""
  | .cons k v .nil => "\"" ++ jsonEscape k ++ "\":" ++ jsonStringify v
  | .cons k v (.cons k2 v2 rest) =>
      "\"" ++ jsonEscape k ++ "\":" ++ jsonStringify v ++ "," ++
        jsonFields (.cons k2 v2 rest)
end

/-! ### URL encoding -/

def hexDigitUpper (n : Nat) : Char :=
  if n < 10 then Char.ofNat (48 + n) else Char.ofNat (55 + n)

/-- Percent-escape `%XX` with upper-case hex, as the JavaScript engine's own encoder emits. -/
def pctChars (b : Nat) : List Char := ['%', hexDigitUpper (b / 16), hexDigitUpper (b % 16)]

/-- The characters `encodeURIComponent` leaves unescaped. -/
def uriUnreserved (c : Char) : Bool :=
  c.isAlpha || c.isDigit ||
    (c ∈ ['-', '_', '.', '!', '~', '*', '\x27', '(', ')'])

def encodeURIComponentChar (c : Char) : List Char :=
  if uriUnreserved c then [c] else (utf8Encode c).flatMap pctChars

/-- The JavaScript builtin `encodeURIComponent`. -/
def encodeURIComponent (s : String) : String := ⟨s.data.flatMap encodeURIComponentChar⟩

/-- The five characters the module additionally escapes. -/
def awsExtraChars : List Char := ['!', '\x27', '(', ')', '*']

/-- Source `UrlEncode` (lines 176–181): `encodeURIComponent`, then replace
each of `! ' ( ) *` by `'%' + c.charCodeAt(0).toString(16)`. -/
def UrlEncode (str : String) : String :=
  ⟨(encodeURIComponent str).data.flatMap (fun c =>
    if c ∈ awsExtraChars then '%' :: (natToHexLower c.toNat).data else [c])⟩

/-! ### Host resolution, query building, header canonicalization -/

def AWS_DEFAULT_BUCKET : String := "DefaultS3Bucket"

def AWS_DEFAULT_REGION : String := "us-east-1"

/-- JavaScript `.filter(Boolean)` over possibly-`undefined` strings: drop `undefined`
and the empty string (both falsy). -/
def jsFilterBoolean (l : List (Option String)) : List String :=
  l.filterMap (fun o => match o with
    | some s => if s = "" then none else some s
    | none => none)

/-- JavaScript `Array.prototype.join(".")`. -/
def jsJoinDot : List String → String
  | [] => ""
  | x :: xs => xs.foldl (fun acc y => acc ++ "." ++ y) x

/-- Source `GetHost` (lines 183–192). -/
def GetHost (service region bucket : String) : String :=
  jsJoinDot (jsFilterBoolean
    [if service = "s3" then some bucket else none,
     some service,
     if service = "s3" then none else some region,
     some "amazonaws.com"])

/-- The non-POST query string (source lines 124–129): `Action=<action>`,
then `&name=<UrlEncode(value)>` for each parameter, keys sorted. -/
def buildQuery (action : String) (params : Option (List (String × String))) : String :=
  let q := "Action=" ++ action
  match params with
  | none => q
  | some ps =>
      (sortKeys (ps.map Prod.fst)).foldl
        (fun acc name => acc ++ ("&" ++ name ++ "=" ++ UrlEncode (getKey ps name))) q

/-- The query string `BuildRequest` uses both in the URL and in the
canonical request (source lines 120–131): empty for POST (case-insensitive). -/
def queryOf (method action : String) (params : Option (List (String × String))) : String :=
  if strToLower method = "post" then "" else buildQuery action params

/-- The four mandatory header assignments (source lines 134–137), applied to
the caller's headers object. -/
def mergeHeaders (headers0 : HeadersMap)
    (host dateTimeStamp action hashedPayload : String) : HeadersMap :=
  setKey (setKey (setKey (setKey headers0
    "Host" host) "X-Amz-Date" dateTimeStamp) "X-Amz-Target" action)
    "X-Amz-Content-SHA256" hashedPayload

/-- The sorted traversal order of the header object (source line 140). -/
def sortedHeaderKeys (m : HeadersMap) : List String := sortKeys (keysOf m)

/-- The canonical header block (source line 141 accumulation):
`lowercase(name):value\n` per key, in sorted order. -/
def canonHeadersString (m : HeadersMap) : String :=
  (sortedHeaderKeys m).foldl
    (fun acc h => acc ++ (strToLower h ++ ":" ++ getKey m h ++ "\n")) ""

/-- The signed-header list (source lines 142–144): `lowercase(name);` per key
in sorted order, with the final `;` removed by `substring(0, length-1)`. -/
def signedHeadersString (m : HeadersMap) : String :=
  let s := (sortedHeaderKeys m).foldl (fun acc h => acc ++ (strToLower h ++ ";")) ""
  jsSubstring s 0 (s.length - 1)

/-! ### The request assembler -/

/-- The object literal `BuildRequest` returns (source lines 158–164). -/
structure SignedRequest where
  url : String
  method : String
  headers : HeadersMap
  muteHttpExceptions : Bool
  payload : String

/-- The closure variables set by `Init` (source lines 38–39, 86–90);
`none` models the `undefined` of never-initialized `let` bindings. -/
structure AWSCreds where
  accessKey : Option String
  secretKey : Option String

/-- Source `Init` (lines 86–90). -/
def Init (access_key secret_key : String) : AWSCreds := ⟨some access_key, some secret_key⟩

/-- The closure state before any `init` call. -/
def noInit : AWSCreds := ⟨none, none⟩

/-- Source `BuildRequest` (lines 92–169).  Explicit extra inputs: the closure
credentials and the formatted current time (`dateTimeStamp`).  Absent/falsy
string arguments are modelled by `""` (and absent `params`/`headers` by
`none`).  The second component of the result is the caller's headers object
as the call leaves it (the source mutates it in place and stores the very
same object in the returned request). -/
def BuildRequest (creds : AWSCreds) (dateTimeStamp : String)
    (service action : String) (params : Option (List (String × String)))
    (region0 method0 : String) (payload0 : JsVal) (headers0 : Option HeadersMap)
    (uri0 bucket0 : String) : Except String (SignedRequest × HeadersMap) :=
  if service = "" then .error "Missing AWS API Service"
  else if action = "" then .error "Missing AWS API Action"
  else
    let region := if region0 = "" then AWS_DEFAULT_REGION else region0
    let method := if method0 = "" then "GET" else method0
    let payload1 := if payload0.truthy then payload0 else .str ""
    let uri := if uri0 = "" then "/" else uri0
    let bucket := if bucket0 = "" then AWS_DEFAULT_BUCKET else bucket0
    let payload := match payload1 with
      | .str s => s
      | p => jsonStringify p
    let dateStamp := jsSubstring dateTimeStamp 0 8
    let hashedPayload := Sha256Hash payload
    let host := GetHost service region bucket
    let headers := headers0.getD []
    let query := queryOf method action params
    let url := if strToLower method = "post" then "https://" ++ host ++ uri
      else "https://" ++ host ++ uri ++ "?" ++ query
    let merged := mergeHeaders headers host dateTimeStamp action hashedPayload
    let canonHeaders := canonHeadersString merged
    let signedHeaders := signedHeadersString merged
    let CanonicalString := method ++ "\n" ++ uri ++ "\n" ++ query ++ "\n" ++
      canonHeaders ++ "\n" ++ signedHeaders ++ "\n" ++ hashedPayload
    let canonHash := Sha256Hash CanonicalString
    let algorithm := "AWS4-HMAC-SHA256"
    let scope := dateStamp ++ "/" ++ region ++ "/" ++ service ++ "/aws4_request"
    let StringToSign := algorithm ++ "\n" ++ dateTimeStamp ++ "\n" ++ scope ++ "\n" ++ canonHash
    let key := GetSignatureKey (jsShow creds.secretKey) dateStamp region service
    let signature := Sha256Hmac StringToSign key
    let authHeader := algorithm ++ " Credential=" ++ jsShow creds.accessKey ++ "/" ++ scope ++
      ", SignedHeaders=" ++ signedHeaders ++ ",Signature=" ++ signature
    let final := delKey (setKey merged "Authorization" authHeader) "Host"
    .ok (⟨url, method, final, true, payload⟩, final)

/-! ### Observation helpers on `BuildRequest` results

These force only the structure they report on; in particular the header
*keys* of a result can be inspected without evaluating any hash value. -/

def reqPayloadOf (e : Except String (SignedRequest × HeadersMap)) : Option String :=
  match e with
  | .ok (r, _) => some r.payload
  | .error _ => none

def reqHeaderOf (e : Except String (SignedRequest × HeadersMap)) (k : String) : Option String :=
  match e with
  | .ok (r, _) => some (getKey r.headers k)
  | .error _ => none

def callerHeadersAfter (e : Except String (SignedRequest × HeadersMap)) : HeadersMap :=
  match e with
  | .ok (_, h) => h
  | .error _ => []

def headersAliased (e : Except String (SignedRequest × HeadersMap)) : Bool :=
  match e with
  | .ok (r, h) => r.headers == h
  | .error _ => false

/-! ### Concrete material used by the canonicalization claims -/

/-- The lower-case hex alphabet, as `hexDigit` produces it. -/
def lowerHexChars : List Char := (List.range 16).map hexDigit

/-- The caller-supplied headers object of the canonicalization test property. -/
def exampleCallerHeaders : HeadersMap := [("Z", "1"), ("a", "2"), ("M", "3")]

/-- That object after `BuildRequest` merges the four mandatory headers into it
(host, timestamp, target and payload-hash values are placeholders; the order
and case of the *names* is all the canonicalization claims are about). -/
def exampleMerged : HeadersMap :=
  mergeHeaders exampleCallerHeaders "examplehost" "20210101T000000Z" "ExampleAction" "examplehash"

set_option maxRecDepth 100000
set_option maxHeartbeats 1000000

/-! ### Generic lemmas about the embedding helpers -/

theorem data_mk (l : List Char) : (String.mk l).data = l := rfl

theorem char_toNat_inj {a b : Char} (h : a.toNat = b.toNat) : a = b := by
  apply Char.ext
  have h2 : a.val.toBitVec.toNat = b.val.toBitVec.toNat := h
  cases ha : a.val; cases hb : b.val
  rw [ha, hb] at h2
  congr 1
  exact BitVec.eq_of_toNat_eq h2

theorem jsJoinEmpty_data (l : List String) :
    (jsJoinEmpty l).data = (l.map String.data).flatten := by
  suffices h : ∀ a : String,
      (l.foldl (fun a s => a ++ s) a).data = a.data ++ (l.map String.data).flatten by
    simpa using h ""
  induction l with
  | nil => intro a; simp
  | cons x xs ih =>
      intro a
      simp [List.foldl_cons, ih (a ++ x), String.data_append]

theorem byteHex_spec (b : Int) (h1 : -128 ≤ b) (h2 : b ≤ 255) :
    (byteHex b).data.length = 2 ∧ ∀ c ∈ (byteHex b).data, c ∈ lowerHexChars := by
  have key : ∀ n : Nat, n < 384 →
      ((byteHex ((n : Int) - 128)).data.length = 2 ∧
        ∀ c ∈ (byteHex ((n : Int) - 128)).data, c ∈ lowerHexChars) := by decide
  have hb : b = (((b + 128).toNat : Int)) - 128 := by omega
  rw [hb]
  exact key (b + 128).toNat (by omega)

theorem bytesToHex_data_length (bytes : List Int)
    (h : ∀ b ∈ bytes, -128 ≤ b ∧ b ≤ 255) :
    (BytesToHex bytes).data.length = 2 * bytes.length := by
  rw [BytesToHex, jsJoinEmpty_data, List.length_flatten]
  induction bytes with
  | nil => simp
  | cons b bs ih =>
      have hb := h b (by simp)
      have h2 := (byteHex_spec b hb.1 hb.2).1
      simp only [List.map_cons, List.sum_cons, List.length_cons, h2,
        ih (fun x hx => h x (by simp [hx]))]
      ring

theorem lookup_setKey_self (m : HeadersMap) (k v : String) :
    (setKey m k v).lookup k = some v := by
  induction m with
  | nil => simp [setKey]
  | cons p rest ih =>
      obtain ⟨k0, v0⟩ := p
      by_cases hk : k0 = k
      · simp [setKey, hk]
      · have hbeq : (k == k0) = false := by simp [Ne.symm hk]
        simp [setKey, hk, List.lookup, hbeq, ih]

theorem lookup_setKey_ne (m : HeadersMap) {k k2 : String} (v : String) (h : k2 ≠ k) :
    (setKey m k v).lookup k2 = m.lookup k2 := by
  induction m with
  | nil => simp [setKey, h]
  | cons p rest ih =>
      obtain ⟨k0, v0⟩ := p
      have hbeq : (k2 == k) = false := by simp [h]
      by_cases hk : k0 = k
      · simp [setKey, hk, List.lookup, hbeq]
      · simp [setKey, hk, List.lookup, ih]

theorem lookup_delKey_ne (m : HeadersMap) {k k2 : String} (h : k2 ≠ k) :
    (delKey m k).lookup k2 = m.lookup k2 := by
  induction m with
  | nil => simp [delKey]
  | cons p rest ih =>
      obtain ⟨k0, v0⟩ := p
      by_cases hk : k0 = k
      · subst hk
        have hbeq : (k2 == k0) = false := by simp [h]
        simp [delKey, List.lookup, hbeq]
      · simp [delKey, hk, List.lookup, ih]

theorem lookup_isSome_iff_mem_keys (m : HeadersMap) (k : String) :
    (m.lookup k).isSome = true ↔ k ∈ keysOf m := by
  induction m with
  | nil => simp [keysOf]
  | cons p rest ih =>
      obtain ⟨k0, v0⟩ := p
      by_cases hk : k = k0
      · subst hk
        simp [List.lookup, keysOf]
      · have hbeq : (k == k0) = false := by simp [hk]
        simp [List.lookup, hbeq, keysOf, hk, ih]

theorem mem_keys_setKey_self (m : HeadersMap) (k v : String) :
    k ∈ keysOf (setKey m k v) := by
  rw [← lookup_isSome_iff_mem_keys, lookup_setKey_self]
  rfl

theorem mem_keys_setKey_of_mem (m : HeadersMap) {k2 : String} (k v : String)
    (h : k2 ∈ keysOf m) : k2 ∈ keysOf (setKey m k v) := by
  by_cases hk : k2 = k
  · subst hk
    exact mem_keys_setKey_self m k2 v
  · rw [← lookup_isSome_iff_mem_keys, lookup_setKey_ne m v hk,
      lookup_isSome_iff_mem_keys]
    exact h

theorem mem_keys_delKey_of_ne {m : HeadersMap} {k k2 : String}
    (h2 : k2 ∈ keysOf m) (h : k2 ≠ k) : k2 ∈ keysOf (delKey m k) := by
  rw [← lookup_isSome_iff_mem_keys, lookup_delKey_ne m h,
    lookup_isSome_iff_mem_keys]
  exact h2

theorem sha256Hash_empty :
    Sha256Hash "" = "e3b0c44298fc1c149afbf4c8996fb92427ae41e4649b934ca495991b7852b855" := by
  decide

theorem pct_replacement_safe (c0 : Char) (h : c0 ∈ awsExtraChars) :
    ∀ c ∈ '%' :: (natToHexLower c0.toNat).data, c ∉ awsExtraChars := by
  fin_cases h <;> decide

theorem charListLt_trans :
    ∀ a b c : List Char, charListLt a b = true → charListLt b c = true →
      charListLt a c = true := by
  intro a
  induction a with
  | nil =>
      intro b c hab hbc
      cases b with
      | nil => simp [charListLt] at hab
      | cons y ys =>
          cases c with
          | nil => simp [charListLt] at hbc
          | cons z zs => simp [charListLt]
  | cons x xs ih =>
      intro b c hab hbc
      cases b with
      | nil => simp [charListLt] at hab
      | cons y ys =>
          cases c with
          | nil => simp [charListLt] at hbc
          | cons z zs =>
              simp only [charListLt] at hab hbc ⊢
              split_ifs at hab hbc ⊢ <;> try rfl
              all_goals try omega
              all_goals simp_all
              exact ih ys zs hab hbc

theorem charListLt_connex :
    ∀ a b : List Char, charListLt a b = false → charListLt b a = false → a = b := by
  intro a
  induction a with
  | nil =>
      intro b h1 _
      cases b with
      | nil => rfl
      | cons y ys => simp [charListLt] at h1
  | cons x xs ih =>
      intro b h1 h2
      cases b with
      | nil => simp [charListLt] at h2
      | cons y ys =>
          simp only [charListLt] at h1 h2
          by_cases hxy : x.toNat < y.toNat
          · rw [if_pos hxy] at h1
            exact absurd h1 (by simp)
          · by_cases hyx : y.toNat < x.toNat
            · rw [if_pos hyx] at h2
              exact absurd h2 (by simp)
            · rw [if_neg hxy, if_neg hyx] at h1
              rw [if_neg hyx, if_neg hxy] at h2
              have hx : x = y := char_toNat_inj (by omega)
              subst hx
              rw [ih ys h1 h2]

theorem jsStrLe_of_lt {a b : String} (h : jsStrLt a b = true) : jsStrLe a b := by
  unfold jsStrLe
  simp [h]

theorem jsStrLe_refl (a : String) : jsStrLe a a := by
  unfold jsStrLe
  simp

theorem jsStrLe_cases {a b : String} (h : jsStrLe a b) : jsStrLt a b = true ∨ a = b := by
  unfold jsStrLe at h
  cases hor : jsStrLt a b with
  | true => exact Or.inl rfl
  | false =>
      rw [hor] at h
      simp at h
      exact Or.inr h

instance : IsTotal String jsStrLe := ⟨by
  intro a b
  by_cases h1 : charListLt a.data b.data = true
  · exact Or.inl (jsStrLe_of_lt h1)
  · by_cases h2 : charListLt b.data a.data = true
    · exact Or.inr (jsStrLe_of_lt h2)
    · have hd : a.data = b.data :=
        charListLt_connex _ _ (by simpa using h1) (by simpa using h2)
      have hab : a = b := String.ext hd
      subst hab
      exact Or.inl (jsStrLe_refl a)⟩

instance : IsTrans String jsStrLe := ⟨by
  intro a b c hab hbc
  rcases jsStrLe_cases hab with h | h
  · rcases jsStrLe_cases hbc with h2 | h2
    · exact jsStrLe_of_lt (charListLt_trans a.data b.data c.data h h2)
    · subst h2
      exact jsStrLe_of_lt h
  · subst h
    exact hbc⟩

/-! ### The claims -/

/-- C1: for secret key "wJalrXUtnFEMI/K7MDENG+bPxRfiCYEXAMPLEKEY", date stamp
"20120215", region "us-east-1" and service "iam", `GetSignatureKey` — the
4-stage HMAC-SHA256 chain `kDate`, `kRegion`, `kService`, `kSigning`, each
stage's raw-byte output keying the next — returns the byte sequence whose
`BytesToHex` encoding is exactly
"f4780e2d9f65fa895f9c67b32ce1baf0b0d8a43505a000a1a9e090d414db404d",
the module's own `TestAWS` regression vector. -/
theorem getSignatureKey_test_vector :
    BytesToHex (GetSignatureKey "wJalrXUtnFEMI/K7MDENG+bPxRfiCYEXAMPLEKEY"
      "20120215" "us-east-1" "iam") =
      "f4780e2d9f65fa895f9c67b32ce1baf0b0d8a43505a000a1a9e090d414db404d" := by decide

/-- C2 (counterexample): the claim asserts the header names are sorted
*case-insensitively*, which would put the caller headers of
`exampleCallerHeaders` in the order a, m, z in the signed-header list; the
sort actually uses the raw (case-sensitive) string `<`, so the lower-cased
caller headers appear in the order m, z, a. -/
theorem signedHeaders_not_case_insensitive :
    ((sortedHeaderKeys exampleMerged).map strToLower).filter
      (fun x => (["a", "m", "z"] : List String).contains x) = ["m", "z", "a"] ∧
    (["m", "z", "a"] : List String) ≠ ["a", "m", "z"] := by decide

/-- C2 (amended): for the caller-supplied headers map of
`exampleCallerHeaders` with the mandatory headers merged in, the names in the
canonical header block and the signed-header list are sorted by the
case-sensitive code-unit order of the original names (so the caller headers
appear in the order m, z, a); the signed-header list is the lower-cased names
joined by ";" with no trailing separator. -/
theorem signedHeaders_case_sensitive_order :
    signedHeadersString exampleMerged =
      "host;m;x-amz-content-sha256;x-amz-date;x-amz-target;z;a" ∧
    canonHeadersString exampleMerged =
      "host:examplehost\nm:3\nx-amz-content-sha256:examplehash\nx-amz-date:20210101T000000Z\nx-amz-target:ExampleAction\nz:1\na:2\n" := by
  decide

/-- C3 (counterexample): the claim asserts the five extra characters are
percent-encoded with *upper-case* hex digits; `"*"` actually encodes to
"%2a" (lower-case), not "%2A". -/
theorem urlEncode_star_lowercase :
    UrlEncode "*" = "%2a" ∧ UrlEncode "*" ≠ "%2A" := by decide

/-- C3 (amended): for every input string, `UrlEncode` percent-encodes the
five characters `! \x27 ( ) *` (which `encodeURIComponent` leaves unescaped)
using *lower-case* hex digits, in addition to the characters
`encodeURIComponent` already escapes; none of the five survives in any
output, and encoding "a!b\x27c(d)e*f" yields "a%21b%27c%28d%29e%2af". -/
theorem urlEncode_escapes_extra_chars (s : String) :
    (∀ c ∈ (UrlEncode s).data, c ∉ awsExtraChars) ∧
    UrlEncode "a!b\x27c(d)e*f" = "a%21b%27c%28d%29e%2af" := by
  refine ⟨?_, by decide⟩
  intro c hc
  rw [UrlEncode, data_mk, List.mem_flatMap] at hc
  obtain ⟨c0, _, hcc⟩ := hc
  by_cases h : c0 ∈ awsExtraChars
  · rw [if_pos h] at hcc
    exact pct_replacement_safe c0 h c hcc
  · rw [if_neg h] at hcc
    simp only [List.mem_singleton] at hcc
    subst hcc
    exact h

/-- Witness for C3 (amended) at the concrete string "x*y". -/
theorem urlEncode_escapes_extra_chars_witness :
    (∀ c ∈ (UrlEncode "x*y").data, c ∉ awsExtraChars) ∧
    UrlEncode "a!b\x27c(d)e*f" = "a%21b%27c%28d%29e%2af" :=
  urlEncode_escapes_extra_chars "x*y"

/-- C4 (counterexample): the claim asserts that with credentials never
initialized, `BuildRequest` fails with a missing-credentials error; there is
no such check — with `noInit` credentials and valid service and action the
call still returns a signed request (the closure's `undefined` keys are
coerced into the strings "AWS4undefined" and "undefined"). -/
theorem buildRequest_no_credentials_check :
    (BuildRequest noInit "20210101T000000Z" "ec2" "DescribeInstances" none "" ""
      (.str "") none "" "").isOk = true := by
  rfl

/-- C4 (amended): `BuildRequest` performs no credential check at all: for
*every* credential state (initialized or not) and every remaining argument,
it succeeds whenever service and action are present — signing cannot fail
for any other reason. -/
theorem buildRequest_total (creds : AWSCreds)
    (dateTimeStamp service action : String) (params : Option (List (String × String)))
    (region method : String) (payload : JsVal) (headers : Option HeadersMap)
    (uri bucket : String) (hs : service ≠ "") (ha : action ≠ "") :
    (BuildRequest creds dateTimeStamp service action params region method payload
      headers uri bucket).isOk = true := by
  simp only [BuildRequest, if_neg hs, if_neg ha]
  rfl

/-- Witness for C4 (amended) at concrete initialized credentials. -/
theorem buildRequest_total_witness :
    (BuildRequest (Init "AKIDEXAMPLE" "SECRETEXAMPLE") "20210101T000000Z" "iam"
      "ListUsers" none "" "" (.str "") none "" "").isOk = true :=
  buildRequest_total (Init "AKIDEXAMPLE" "SECRETEXAMPLE") "20210101T000000Z" "iam"
    "ListUsers" none "" "" (.str "") none "" "" (by decide) (by decide)

/-- C5: for every byte array whose entries are byte values (including signed
representations, i.e. `-128..255`), `BytesToHex` maps each element to exactly
two lower-case hex characters and concatenates them: the output length is
twice the input length and every output character is a lower-case hex digit;
byte 10 gives "0a", byte 255 gives "ff", and -1 is normalized by adding 256,
so it gives "ff" — never "-1" and never a single hex character. -/
theorem bytesToHex_two_lowercase_hex (bytes : List Int)
    (h : ∀ b ∈ bytes, -128 ≤ b ∧ b ≤ 255) :
    (BytesToHex bytes).length = 2 * bytes.length ∧
    (∀ c ∈ (BytesToHex bytes).data, c ∈ lowerHexChars) ∧
    BytesToHex [10] = "0a" ∧ BytesToHex [255] = "ff" ∧ BytesToHex [-1] = "ff" := by
  refine ⟨bytesToHex_data_length bytes h, ?_, by decide, by decide, by decide⟩
  intro c hc
  rw [BytesToHex, jsJoinEmpty_data] at hc
  rw [List.mem_flatten] at hc
  obtain ⟨l, hl, hcl⟩ := hc
  rw [List.mem_map] at hl
  obtain ⟨s, hs, rfl⟩ := hl
  rw [List.mem_map] at hs
  obtain ⟨b, hb, rfl⟩ := hs
  have hb2 := h b hb
  exact (byteHex_spec b hb2.1 hb2.2).2 c hcl

/-- Witness for C5 at the concrete byte list `[10, 255, -1]`. -/
theorem bytesToHex_two_lowercase_hex_witness :
    (BytesToHex [10, 255, -1]).length = 2 * ([10, 255, -1] : List Int).length ∧
    (∀ c ∈ (BytesToHex [10, 255, -1]).data, c ∈ lowerHexChars) ∧
    BytesToHex [10] = "0a" ∧ BytesToHex [255] = "ff" ∧ BytesToHex [-1] = "ff" :=
  bytesToHex_two_lowercase_hex [10, 255, -1] (by decide)

/-- C6: when the service argument is absent/falsy, `BuildRequest` fails with
the missing-service error, and when service is present but action is
absent/falsy it fails with the missing-action error — in both cases the
result is exactly the error value, so no hash, signature, timestamp
processing or partial signing state is produced and nothing is dispatched. -/
theorem buildRequest_missing_parameter (creds : AWSCreds)
    (dateTimeStamp service action : String) (params : Option (List (String × String)))
    (region method : String) (payload : JsVal) (headers : Option HeadersMap)
    (uri bucket : String) :
    (service = "" →
      BuildRequest creds dateTimeStamp service action params region method payload
        headers uri bucket = .error "Missing AWS API Service") ∧
    (service ≠ "" → action = "" →
      BuildRequest creds dateTimeStamp service action params region method payload
        headers uri bucket = .error "Missing AWS API Action") := by
  constructor
  · intro h
    simp [BuildRequest, h]
  · intro hs ha
    simp [BuildRequest, hs, ha]

/-- Witness for C6 at concrete inputs with service (resp. action) absent. -/
theorem buildRequest_missing_parameter_witness :
    (BuildRequest noInit "20210101T000000Z" "" "DescribeInstances" none "" ""
      (.str "") none "" "" = .error "Missing AWS API Service") ∧
    (BuildRequest noInit "20210101T000000Z" "ec2" "" none "" ""
      (.str "") none "" "" = .error "Missing AWS API Action") :=
  ⟨(buildRequest_missing_parameter noInit "20210101T000000Z" "" "DescribeInstances"
      none "" "" (.str "") none "" "").1 rfl,
   (buildRequest_missing_parameter noInit "20210101T000000Z" "ec2" ""
      none "" "" (.str "") none "" "").2 (by decide) rfl⟩

/-- C7: the query string `BuildRequest` uses in the canonical request and the
URL is empty whenever the method case-insensitively equals "POST"; for every
other method it is "Action=" followed by the action and then, for each
supplied parameter in lexicographic (code-unit) key order, "&name=value"
with the value URL-encoded by `UrlEncode`. -/
theorem query_string_rules (method action : String) (params : List (String × String)) :
    (strToLower method = "post" → queryOf method action (some params) = "") ∧
    (strToLower method ≠ "post" →
      ∃ names : List String, names.Perm (params.map Prod.fst) ∧
        List.Sorted jsStrLe names ∧
        queryOf method action (some params) =
          names.foldl (fun acc name =>
            acc ++ ("&" ++ name ++ "=" ++ UrlEncode (getKey params name)))
            ("Action=" ++ action)) := by
  constructor
  · intro h
    simp [queryOf, h]
  · intro h
    refine ⟨sortKeys (params.map Prod.fst), List.perm_insertionSort _ _,
      List.sorted_insertionSort _ _, ?_⟩
    simp [queryOf, h, buildQuery, sortKeys]

/-- Witness for C7: the POST branch at the mixed-case method "PoSt" and the
non-POST branch at method "GET", both on a concrete parameter map. -/
theorem query_string_rules_witness :
    (queryOf "PoSt" "DescribeInstances" (some [("B", "2"), ("A", "1")]) = "") ∧
    (∃ names : List String,
      names.Perm ([("B", "2"), ("A", "1")].map Prod.fst) ∧
      List.Sorted jsStrLe names ∧
      queryOf "GET" "DescribeInstances" (some [("B", "2"), ("A", "1")]) =
        names.foldl (fun acc name =>
          acc ++ ("&" ++ name ++ "=" ++ UrlEncode (getKey [("B", "2"), ("A", "1")] name)))
          ("Action=" ++ "DescribeInstances")) :=
  ⟨(query_string_rules "PoSt" "DescribeInstances" [("B", "2"), ("A", "1")]).1 (by decide),
   (query_string_rules "GET" "DescribeInstances" [("B", "2"), ("A", "1")]).2 (by decide)⟩

/-- C8: for every non-empty service, region and bucket, `GetHost` returns
`bucket ++ ".s3.amazonaws.com"` when the service is "s3" (region omitted)
and `service ++ "." ++ region ++ ".amazonaws.com"` for every other service. -/
theorem getHost_resolution (service region bucket : String)
    (hs : service ≠ "") (hr : region ≠ "") (hb : bucket ≠ "") :
    (service = "s3" → GetHost service region bucket = bucket ++ ".s3.amazonaws.com") ∧
    (service ≠ "s3" →
      GetHost service region bucket = service ++ "." ++ region ++ ".amazonaws.com") := by
  constructor
  · intro h
    subst h
    have h1 : GetHost "s3" region bucket = (bucket ++ "." ++ "s3") ++ "." ++ "amazonaws.com" := by
      simp [GetHost, jsFilterBoolean, jsJoinDot, hb]
    rw [h1]
    apply String.ext
    simp only [String.data_append, List.append_assoc]
    congr 1
  · intro h
    have h1 : GetHost service region bucket =
        (service ++ "." ++ region) ++ "." ++ "amazonaws.com" := by
      simp [GetHost, jsFilterBoolean, jsJoinDot, hs, hr, h]
    rw [h1]
    apply String.ext
    simp only [String.data_append, List.append_assoc]
    congr 2

/-- Witness for C8 at the two hosts named by the claim: ("s3", any region,
"mybucket") and ("ec2", "us-west-2"). -/
theorem getHost_resolution_witness :
    GetHost "s3" "eu-west-1" "mybucket" = "mybucket" ++ ".s3.amazonaws.com" ∧
    GetHost "ec2" "us-west-2" "mybucket" = "ec2" ++ "." ++ "us-west-2" ++ ".amazonaws.com" :=
  ⟨(getHost_resolution "s3" "eu-west-1" "mybucket"
      (by decide) (by decide) (by decide)).1 rfl,
   (getHost_resolution "ec2" "us-west-2" "mybucket"
      (by decide) (by decide) (by decide)).2 (by decide)⟩

/-- C9 (counterexample): the claim asserts the caller's headers map is
unchanged after the call; starting from an empty caller map, the caller's
object after the call contains an "Authorization" entry (and is non-empty),
because `BuildRequest` mutates the caller's object in place. -/
theorem buildRequest_mutates_caller_headers :
    "Authorization" ∈ keysOf (callerHeadersAfter
      (BuildRequest noInit "20210101T000000Z" "ec2" "DescribeInstances" none "" ""
        (.str "") (some []) "" "")) ∧
    callerHeadersAfter
      (BuildRequest noInit "20210101T000000Z" "ec2" "DescribeInstances" none "" ""
        (.str "") (some []) "" "") ≠ [] := by
  constructor
  · decide
  · decide

/-- C9 (amended): `BuildRequest` updates the caller-supplied headers map in
place — after any successful call the caller's object has gained the
X-Amz-Date, X-Amz-Target, X-Amz-Content-SHA256 and Authorization entries
(Host is added transiently and deleted again) — and the headers of the
returned request are that same updated object, not a separate copy. -/
theorem buildRequest_headers_shared_and_extended (creds : AWSCreds)
    (dateTimeStamp service action : String) (params : Option (List (String × String)))
    (region method : String) (payload : JsVal) (headers : Option HeadersMap)
    (uri bucket : String) (hs : service ≠ "") (ha : action ≠ "") :
    headersAliased (BuildRequest creds dateTimeStamp service action params region
      method payload headers uri bucket) = true ∧
    "Authorization" ∈ keysOf (callerHeadersAfter (BuildRequest creds dateTimeStamp
      service action params region method payload headers uri bucket)) ∧
    "X-Amz-Date" ∈ keysOf (callerHeadersAfter (BuildRequest creds dateTimeStamp
      service action params region method payload headers uri bucket)) ∧
    "X-Amz-Target" ∈ keysOf (callerHeadersAfter (BuildRequest creds dateTimeStamp
      service action params region method payload headers uri bucket)) ∧
    "X-Amz-Content-SHA256" ∈ keysOf (callerHeadersAfter (BuildRequest creds
      dateTimeStamp service action params region method payload headers uri bucket)) := by
  simp only [BuildRequest, if_neg hs, if_neg ha, headersAliased, callerHeadersAfter,
    mergeHeaders]
  refine ⟨by simp, ?_, ?_, ?_, ?_⟩
  · exact mem_keys_delKey_of_ne (mem_keys_setKey_self _ _ _) (by decide)
  · exact mem_keys_delKey_of_ne
      (mem_keys_setKey_of_mem _ _ _
        (mem_keys_setKey_of_mem _ _ _
          (mem_keys_setKey_of_mem _ _ _
            (mem_keys_setKey_self _ _ _)))) (by decide)
  · exact mem_keys_delKey_of_ne
      (mem_keys_setKey_of_mem _ _ _
        (mem_keys_setKey_of_mem _ _ _
          (mem_keys_setKey_self _ _ _))) (by decide)
  · exact mem_keys_delKey_of_ne
      (mem_keys_setKey_of_mem _ _ _
        (mem_keys_setKey_self _ _ _)) (by decide)

/-- Witness for C9 (amended) at a concrete call with a non-empty caller map. -/
theorem buildRequest_headers_shared_and_extended_witness :
    headersAliased (BuildRequest (Init "AK" "SK") "20210101T000000Z" "sqs"
      "SendMessage" none "" "" (.str "") (some [("User-Agent", "gas")]) "" "") = true ∧
    "Authorization" ∈ keysOf (callerHeadersAfter (BuildRequest (Init "AK" "SK")
      "20210101T000000Z" "sqs" "SendMessage" none "" "" (.str "")
      (some [("User-Agent", "gas")]) "" "")) ∧
    "X-Amz-Date" ∈ keysOf (callerHeadersAfter (BuildRequest (Init "AK" "SK")
      "20210101T000000Z" "sqs" "SendMessage" none "" "" (.str "")
      (some [("User-Agent", "gas")]) "" "")) ∧
    "X-Amz-Target" ∈ keysOf (callerHeadersAfter (BuildRequest (Init "AK" "SK")
      "20210101T000000Z" "sqs" "SendMessage" none "" "" (.str "")
      (some [("User-Agent", "gas")]) "" "")) ∧
    "X-Amz-Content-SHA256" ∈ keysOf (callerHeadersAfter (BuildRequest (Init "AK" "SK")
      "20210101T000000Z" "sqs" "SendMessage" none "" "" (.str "")
      (some [("User-Agent", "gas")]) "" "")) :=
  buildRequest_headers_shared_and_extended (Init "AK" "SK") "20210101T000000Z" "sqs"
    "SendMessage" none "" "" (.str "") (some [("User-Agent", "gas")]) "" ""
    (by decide) (by decide)

/-- C10: every falsy payload — the string "", the number 0, false, null,
undefined — is replaced by the empty string before signing: the returned
request's payload is "" and its X-Amz-Content-SHA256 header is the SHA-256
hex digest of the empty string (so 0 or false is never serialized as "0" or
"false"); string payloads pass through unchanged, and only truthy non-string
payloads are JSON-stringified. -/
theorem buildRequest_payload_normalization (creds : AWSCreds)
    (dateTimeStamp service action : String) (params : Option (List (String × String)))
    (region method : String) (headers : Option HeadersMap) (uri bucket : String)
    (hs : service ≠ "") (ha : action ≠ "") :
    (∀ p : JsVal, p.truthy = false →
      reqPayloadOf (BuildRequest creds dateTimeStamp service action params region
        method p headers uri bucket) = some "" ∧
      reqHeaderOf (BuildRequest creds dateTimeStamp service action params region
        method p headers uri bucket) "X-Amz-Content-SHA256" =
        some "e3b0c44298fc1c149afbf4c8996fb92427ae41e4649b934ca495991b7852b855") ∧
    (∀ s : String,
      reqPayloadOf (BuildRequest creds dateTimeStamp service action params region
        method (.str s) headers uri bucket) = some s) ∧
    (∀ p : JsVal, p.truthy = true → p.isString = false →
      reqPayloadOf (BuildRequest creds dateTimeStamp service action params region
        method p headers uri bucket) = some (jsonStringify p)) := by
  refine ⟨?_, ?_, ?_⟩
  · intro p hp
    simp only [BuildRequest, if_neg hs, if_neg ha, hp, Bool.false_eq_true, if_false,
      reqPayloadOf, reqHeaderOf]
    constructor
    · trivial
    · rw [getKey, lookup_delKey_ne _ (by decide), lookup_setKey_ne _ _ (by decide),
        mergeHeaders, lookup_setKey_self]
      simp [sha256Hash_empty]
  · intro s
    by_cases h0 : s = ""
    · subst h0
      simp [BuildRequest, if_neg hs, if_neg ha, reqPayloadOf, JsVal.truthy]
    · have ht : (JsVal.str s).truthy = true := by simp [JsVal.truthy, h0]
      simp only [BuildRequest, if_neg hs, if_neg ha, ht, if_true, reqPayloadOf]
  · intro p hp hns
    simp only [BuildRequest, if_neg hs, if_neg ha, hp, if_true, reqPayloadOf]
    cases p <;> simp_all [JsVal.isString, JsVal.truthy, reqPayloadOf]

/-- Witness for C10 at a concrete call, applied to the falsy payload 0. -/
theorem buildRequest_payload_normalization_witness :
    reqPayloadOf (BuildRequest noInit "20210101T000000Z" "ec2" "DescribeInstances"
      none "" "" (.num 0) none "" "") = some "" ∧
    reqHeaderOf (BuildRequest noInit "20210101T000000Z" "ec2" "DescribeInstances"
      none "" "" (.num 0) none "" "") "X-Amz-Content-SHA256" =
      some "e3b0c44298fc1c149afbf4c8996fb92427ae41e4649b934ca495991b7852b855" :=
  (buildRequest_payload_normalization noInit "20210101T000000Z" "ec2"
    "DescribeInstances" none "" "" none "" "" (by decide) (by decide)).1
    (.num 0) (by decide)
